import Mathlib

/-
Verification of the Medicine Tracker depletion-forecasting core (src/app.py).

Shallow embedding conventions:
  * A document of the medicine_usage collection is a LogEntry with an Int
    quantity (the ingestion layer stores Python ints: positive = consumption,
    negative = restock) and an Int timestamp measured in seconds, so that
    Python timedelta .days is Int.fdiv by 86400 (floor division).
  * Python true division is modelled exactly on ℚ.
  * datetime.now() / datetime.today() are reified as an explicit Int
    parameter (now / today), following the design note on implicit "now".
  * strftime("%Y-%m-%d") is modelled as the day number of the instant
    (floor of seconds / 86400); calendar rendering is a bijection on day
    numbers, so date comparisons are preserved.
  * The Prophet fit+predict step is an external library call; it is
    abstracted as a function parameter fitPredict returning either a list of
    forecast rows (ds, yhat) in chronological order or a failure message
    (the try/except boundary of the forecast route).
-/

namespace MedicineTracker

/-- One document of the medicine_usage collection: medicine name, signed
quantity (positive = usage, negative = restock), timestamp in seconds. -/
structure LogEntry where
  medicine : String
  quantity : Int
  timestamp : Int
deriving DecidableEq, Repr

/-- INITIAL_CAPACITY_ML constant of app.py. -/
def INITIAL_CAPACITY_ML : Int := 100

/-- calculate_current_remaining of app.py: INITIAL_CAPACITY_ML minus the sum
of quantities of all log entries whose medicine matches. -/
def calculate_current_remaining (logs : List LogEntry) (medicine_name : String) : Int :=
  INITIAL_CAPACITY_ML - ((logs.filter (fun e => e.medicine = medicine_name)).map
    (fun e => e.quantity)).sum

/-- Python (a - b).days for datetimes a, b in seconds: timedelta.days is the
floor of the difference divided by 86400. -/
def tdDays (a b : Int) : Int := (a - b).fdiv 86400

/-- The elapsed-time divisor of predict_depletion:
time_span_days = (now - first_usage_date).days, replaced by 1 when it is 0. -/
def time_span_days (now first_usage : Int) : Int :=
  if tdDays now first_usage = 0 then 1 else tdDays now first_usage

/-- The mongo query of predict_depletion: entries of this medicine with
quantity > 0 (consumption only). -/
def usageEntries (logs : List LogEntry) (medicine : String) : List LogEntry :=
  logs.filter (fun e => e.medicine = medicine ∧ 0 < e.quantity)

/-- usage_entries[0].timestamp after the sort by timestamp: the least
timestamp among the (nonempty) usage entries e :: rest. -/
def first_usage_date (e : LogEntry) (rest : List LogEntry) : Int :=
  (rest.map (fun x => x.timestamp)).foldl min e.timestamp

/-- total_usage_since_first: sum of the quantities of the usage entries. -/
def total_usage (l : List LogEntry) : Int :=
  (l.map (fun e => e.quantity)).sum

/-- daily_avg_usage = total_usage_since_first / time_span_days, as exact
rational (Python true division). -/
def daily_avg_usage (now : Int) (e : LogEntry) (rest : List LogEntry) : ℚ :=
  (total_usage (e :: rest) : ℚ) / (time_span_days now (first_usage_date e rest) : ℚ)

/-- datetime.now() + timedelta(days=days_to_depletion), in seconds. -/
def depletionInstant (now : Int) (days_to_depletion : ℚ) : ℚ :=
  (now : ℚ) + days_to_depletion * 86400

/-- strftime("%Y-%m-%d") modelled as the day number of an instant: the floor
of t / 86400, computed executably as numerator over denominator. -/
def formatDay (t : ℚ) : Int :=
  (t / 86400).num / ((t / 86400).den : Int)

/-- Result space of predict_depletion. -/
inductive DepletionEstimate where
  | noUsageData
  | alreadyDepleted
  | depletionDate (day : Int)
  | noTrend
deriving DecidableEq, Repr

/-- Body of predict_depletion after the nonempty usage_entries e :: rest are
obtained: branch on daily_avg_usage > 0, then on days_to_depletion < 0. -/
def predictFromUsage (now : Int) (e : LogEntry) (rest : List LogEntry)
    (current_remaining : Int) : DepletionEstimate :=
  if 0 < daily_avg_usage now e rest then
    if (current_remaining : ℚ) / daily_avg_usage now e rest < 0 then
      DepletionEstimate.alreadyDepleted
    else
      DepletionEstimate.depletionDate
        (formatDay (depletionInstant now ((current_remaining : ℚ) / daily_avg_usage now e rest)))
  else DepletionEstimate.noTrend

/-- predict_depletion of app.py. -/
def predict_depletion (logs : List LogEntry) (now : Int) (medicine : String)
    (current_remaining : Int) : DepletionEstimate :=
  match usageEntries logs medicine with
  | [] => DepletionEstimate.noUsageData
  | e :: rest => predictFromUsage now e rest current_remaining

/-- One row of the Prophet forecast frame: date ds (seconds) and predicted
usage yhat. -/
structure ForecastRow where
  ds : Int
  yhat : ℚ
deriving DecidableEq, Repr

/-- Result space of the per-medicine forecast loop body. -/
inductive ForecastAlert where
  | insufficientData
  | neededIn (days : Int)
  | alreadyDepleted
  | sufficientForNow
  | forecastError (msg : String)
deriving DecidableEq, Repr

/-- The forward walk of the forecast route: subtract max(yhat, 0) from the
running remaining stock row by row; return the ds of the first row at which
it falls to 0 or below, or none when no row crosses. -/
def walkCrossing (r : ℚ) : List ForecastRow → Option Int
  | [] => none
  | row :: rest =>
    if r - max row.yhat 0 ≤ 0 then some row.ds
    else walkCrossing (r - max row.yhat 0) rest

/-- Alert produced from the walk: crossing day with
(depletion_date - today).days >= 0 gives the needed-in alert, a negative
difference gives already depleted, no crossing gives sufficient for now. -/
def seasonalAlert (today : Int) (r : ℚ) (rows : List ForecastRow) : ForecastAlert :=
  match walkCrossing r rows with
  | some ds =>
    if 0 ≤ tdDays ds today then ForecastAlert.neededIn (tdDays ds today)
    else ForecastAlert.alreadyDepleted
  | none => ForecastAlert.sufficientForNow

/-- One row of the usage_data frame built by the forecast route: ds and y. -/
structure Obs where
  ds : Int
  y : Int
deriving DecidableEq, Repr

/-- med_df for one medicine: the usage entries (quantity > 0, matching
medicine) projected to (ds, y). -/
def usageObs (logs : List LogEntry) (medicine : String) : List Obs :=
  (usageEntries logs medicine).map (fun e => Obs.mk e.timestamp e.quantity)

/-- Python l[-14:] when truncating the forecast frame: the last n elements. -/
def takeLast {α : Type} (n : Nat) (l : List α) : List α :=
  l.drop (l.length - n)

/-- Per-medicine body of the forecast route, with the Prophet fit+predict
step abstracted as fitPredict (the try/except converts a failure into the
diagnostic alert string). -/
def forecastMed (fitPredict : List Obs → Except String (List ForecastRow))
    (today : Int) (obs : List Obs) (current_remaining : Int) : ForecastAlert :=
  if obs.length < 2 then ForecastAlert.insufficientData
  else
    match fitPredict obs with
    | Except.error e => ForecastAlert.forecastError ("Forecast error: " ++ e)
    | Except.ok forecast_result =>
      seasonalAlert today (current_remaining : ℚ) (takeLast 14 forecast_result)

/-- The alert computed for one medicine in the batch loop of the forecast
route: observations and current remaining stock both derived from the logs. -/
def forecastAlertFor (fitPredict : List Obs → Except String (List ForecastRow))
    (logs : List LogEntry) (today : Int) (medicine : String) : ForecastAlert :=
  forecastMed fitPredict today (usageObs logs medicine)
    (calculate_current_remaining logs medicine)

/-- Clamped total predicted usage of a list of forecast rows. -/
def clampedTotal (rows : List ForecastRow) : ℚ :=
  (rows.map (fun row => max row.yhat 0)).sum

lemma mem_usageEntries {logs : List LogEntry} {medicine : String} {e : LogEntry} :
    e ∈ usageEntries logs medicine ↔ e ∈ logs ∧ e.medicine = medicine ∧ 0 < e.quantity := by
  simp [usageEntries, List.mem_filter, and_assoc]

lemma tdDays_nonneg {now first : Int} (h : first ≤ now) : 0 ≤ tdDays now first :=
  Int.fdiv_nonneg (by omega) (by norm_num)

lemma time_span_days_eq_max {now first : Int} (h : first ≤ now) :
    time_span_days now first = max 1 (tdDays now first) := by
  have h0 := tdDays_nonneg h
  unfold time_span_days
  split <;> omega

lemma time_span_days_ne_zero (now first : Int) : time_span_days now first ≠ 0 := by
  unfold time_span_days
  split <;> omega

lemma one_le_time_span_days {now first : Int} (h : first ≤ now) :
    1 ≤ time_span_days now first := by
  have h0 := tdDays_nonneg h
  unfold time_span_days
  split <;> omega

lemma foldl_min_le {l : List Int} {a now : Int} (ha : a ≤ now) :
    l.foldl min a ≤ now := by
  induction l generalizing a with
  | nil => simpa using ha
  | cons x xs ih => exact ih (le_trans (min_le_left a x) ha)

lemma first_usage_date_le {e : LogEntry} {rest : List LogEntry} {now : Int}
    (he : e.timestamp ≤ now) : first_usage_date e rest ≤ now :=
  foldl_min_le he

lemma predict_depletion_cons {logs : List LogEntry} {now : Int} {medicine : String}
    {current_remaining : Int} {e : LogEntry} {rest : List LogEntry}
    (hu : usageEntries logs medicine = e :: rest) :
    predict_depletion logs now medicine current_remaining
      = predictFromUsage now e rest current_remaining := by
  unfold predict_depletion
  rw [hu]

lemma predict_depletion_nil {logs : List LogEntry} {now : Int} {medicine : String}
    {current_remaining : Int} (hu : usageEntries logs medicine = []) :
    predict_depletion logs now medicine current_remaining = DepletionEstimate.noUsageData := by
  unfold predict_depletion
  rw [hu]

/-- Claim C1: the ledger reducer returns INITIAL_CAPACITY_ML minus the sum of
the event quantities, independently of the order of the events, and returns
INITIAL_CAPACITY_ML on an empty event list. -/
theorem stock_ledger_reducer_correct (medicine : String) (l1 l2 : List LogEntry)
    (hperm : l1.Perm l2) (hmed : ∀ e ∈ l1, e.medicine = medicine) :
    calculate_current_remaining l1 medicine
        = INITIAL_CAPACITY_ML - (l1.map (fun e => e.quantity)).sum
      ∧ calculate_current_remaining l1 medicine = calculate_current_remaining l2 medicine
      ∧ calculate_current_remaining [] medicine = INITIAL_CAPACITY_ML := by
  refine ⟨?_, ?_, by simp [calculate_current_remaining]⟩
  · unfold calculate_current_remaining
    rw [List.filter_eq_self.mpr (fun a ha => decide_eq_true (hmed a ha))]
  · unfold calculate_current_remaining
    rw [List.Perm.sum_eq (List.Perm.map _ (List.Perm.filter _ hperm))]

theorem stock_ledger_reducer_correct_witness :
    calculate_current_remaining
        [LogEntry.mk "betadine" 10 0, LogEntry.mk "betadine" (-50) 5] "betadine"
        = INITIAL_CAPACITY_ML
          - ([LogEntry.mk "betadine" 10 0, LogEntry.mk "betadine" (-50) 5].map
              (fun e => e.quantity)).sum
      ∧ calculate_current_remaining
          [LogEntry.mk "betadine" 10 0, LogEntry.mk "betadine" (-50) 5] "betadine"
        = calculate_current_remaining
            [LogEntry.mk "betadine" (-50) 5, LogEntry.mk "betadine" 10 0] "betadine"
      ∧ calculate_current_remaining [] "betadine" = INITIAL_CAPACITY_ML :=
  stock_ledger_reducer_correct "betadine" _ _ (List.Perm.swap _ _ _) (by decide)

/-- Claim C3 (counterexample): with a single consumption event whose
timestamp lies two days after now, the divisor computed by the code is -2,
while max(1, whole_days_between(now, first_usage_date)) is 1; the claimed
equality fails on this input. -/
theorem time_span_divisor_counterexample :
    usageEntries [LogEntry.mk "a" 5 172800] "a" = [LogEntry.mk "a" 5 172800]
    ∧ time_span_days 0 (first_usage_date (LogEntry.mk "a" 5 172800) []) = -2
    ∧ ¬ time_span_days 0 (first_usage_date (LogEntry.mk "a" 5 172800) [])
        = max 1 (tdDays 0 (first_usage_date (LogEntry.mk "a" 5 172800) [])) := by
  refine ⟨by decide, by decide, by decide⟩

/-- Claim C3 (amended): for a non-empty set of consumption events whose first
usage timestamp is at or before now, the elapsed-time divisor equals
max(1, whole_days_between(now, first_usage_date)) and is at least 1; for
arbitrary inputs the divisor is never zero, so the daily-average division
never divides by zero, in particular when all usage shares the timestamp
now. -/
theorem time_span_divisor_amended (logs : List LogEntry) (now : Int) (medicine : String)
    (e : LogEntry) (rest : List LogEntry) (_hu : usageEntries logs medicine = e :: rest) :
    (first_usage_date e rest ≤ now →
      time_span_days now (first_usage_date e rest)
          = max 1 (tdDays now (first_usage_date e rest))
        ∧ 1 ≤ time_span_days now (first_usage_date e rest))
    ∧ time_span_days now (first_usage_date e rest) ≠ 0
    ∧ time_span_days now now = 1 := by
  refine ⟨fun h => ⟨time_span_days_eq_max h, one_le_time_span_days h⟩,
    time_span_days_ne_zero _ _, ?_⟩
  have h0 : tdDays now now = 0 := by
    unfold tdDays
    simp
  unfold time_span_days
  rw [h0]
  simp

theorem time_span_divisor_amended_witness :
    (first_usage_date (LogEntry.mk "a" 10 0) [] ≤ 86400 →
      time_span_days 86400 (first_usage_date (LogEntry.mk "a" 10 0) [])
          = max 1 (tdDays 86400 (first_usage_date (LogEntry.mk "a" 10 0) []))
        ∧ 1 ≤ time_span_days 86400 (first_usage_date (LogEntry.mk "a" 10 0) []))
    ∧ time_span_days 86400 (first_usage_date (LogEntry.mk "a" 10 0) []) ≠ 0
    ∧ time_span_days 86400 86400 = 1 :=
  time_span_divisor_amended [LogEntry.mk "a" 10 0] 86400 "a"
    (LogEntry.mk "a" 10 0) [] (by decide)

/-- Claim C4: when current_remaining is negative and the computed daily
average usage is positive, the linear estimator returns the already-depleted
status rather than a calendar date. -/
theorem linear_already_depleted (logs : List LogEntry) (now : Int) (medicine : String)
    (current_remaining : Int) (e : LogEntry) (rest : List LogEntry)
    (hu : usageEntries logs medicine = e :: rest)
    (havg : 0 < daily_avg_usage now e rest)
    (hr : current_remaining < 0) :
    predict_depletion logs now medicine current_remaining
      = DepletionEstimate.alreadyDepleted := by
  rw [predict_depletion_cons hu]
  unfold predictFromUsage
  rw [if_pos havg, if_pos]
  exact div_neg_of_neg_of_pos (by exact_mod_cast hr) havg

theorem linear_already_depleted_witness :
    0 < daily_avg_usage 0 (LogEntry.mk "a" 10 0) []
    ∧ (-5 : Int) < 0
    ∧ predict_depletion [LogEntry.mk "a" 10 0] 0 "a" (-5)
        = DepletionEstimate.alreadyDepleted :=
  have havg : 0 < daily_avg_usage 0 (LogEntry.mk "a" 10 0) [] := by
    norm_num [daily_avg_usage, total_usage, first_usage_date, time_span_days, tdDays]
  ⟨havg, by norm_num,
    linear_already_depleted [LogEntry.mk "a" 10 0] 0 "a" (-5)
      (LogEntry.mk "a" 10 0) [] (by decide) havg (by norm_num)⟩

/-- Claim C6: when the medicine has no event with positive quantity (in
particular an empty log), the linear estimator returns the no-usage-data
status for every current_remaining. -/
theorem linear_no_usage_data (logs : List LogEntry) (now : Int) (medicine : String)
    (current_remaining : Int)
    (h : ∀ e ∈ logs, e.medicine = medicine → e.quantity ≤ 0) :
    predict_depletion logs now medicine current_remaining
      = DepletionEstimate.noUsageData := by
  apply predict_depletion_nil
  unfold usageEntries
  rw [List.filter_eq_nil_iff]
  intro a ha
  simp only [decide_eq_true_eq]
  rintro ⟨h1, h2⟩
  exact absurd h2 (not_lt.mpr (h a ha h1))

theorem linear_no_usage_data_witness :
    (∀ e ∈ [LogEntry.mk "a" (-5) 0, LogEntry.mk "b" 3 0],
      e.medicine = "a" → e.quantity ≤ 0)
    ∧ predict_depletion [LogEntry.mk "a" (-5) 0, LogEntry.mk "b" 3 0] 0 "a" 7
        = DepletionEstimate.noUsageData :=
  ⟨by decide, linear_no_usage_data _ _ _ _ (by decide)⟩

lemma formatDay_eq_floor (t : ℚ) : formatDay t = ⌊t / 86400⌋ := by
  unfold formatDay
  exact (Rat.floor_def).symm

lemma formatDay_mono {t u : ℚ} (h : t ≤ u) : formatDay t ≤ formatDay u := by
  rw [formatDay_eq_floor, formatDay_eq_floor]
  exact Int.floor_mono (by gcongr)

/-- Claim C9 (counterexample): with one usage event of quantity 1000 at the
instant now, both current_remaining = 10 and current_remaining = 20 produce
calendar-date results, yet the two formatted depletion dates are the same
day; the strictly-later claim fails at this input. -/
theorem linear_monotone_counterexample :
    (10 : Int) < 20
    ∧ predict_depletion [LogEntry.mk "a" 1000 0] 0 "a" 10
        = DepletionEstimate.depletionDate 0
    ∧ predict_depletion [LogEntry.mk "a" 1000 0] 0 "a" 20
        = DepletionEstimate.depletionDate 0 := by
  refine ⟨by norm_num, ?_, ?_⟩ <;>
  · simp [predict_depletion, predictFromUsage, usageEntries, daily_avg_usage, total_usage,
      first_usage_date, time_span_days, tdDays, formatDay, depletionInstant, List.filter]
    norm_num

/-- Claim C9 (amended): with the event log fixed and the computed daily
average positive, a larger current_remaining that also produces a
calendar-date result has a depletion date at least as late day-wise, and the
underlying projected depletion instant is strictly later; the two formatted
dates can coincide when both instants fall on the same calendar day. -/
theorem linear_monotone_amended (logs : List LogEntry) (now : Int) (medicine : String)
    (r1 r2 : Int) (e : LogEntry) (rest : List LogEntry) (d1 d2 : Int)
    (hu : usageEntries logs medicine = e :: rest)
    (havg : 0 < daily_avg_usage now e rest)
    (h12 : r1 < r2)
    (hd1 : predict_depletion logs now medicine r1 = DepletionEstimate.depletionDate d1)
    (hd2 : predict_depletion logs now medicine r2 = DepletionEstimate.depletionDate d2) :
    d1 ≤ d2
    ∧ depletionInstant now ((r1 : ℚ) / daily_avg_usage now e rest)
        < depletionInstant now ((r2 : ℚ) / daily_avg_usage now e rest) := by
  have key : ∀ r d : Int,
      predict_depletion logs now medicine r = DepletionEstimate.depletionDate d →
      d = formatDay (depletionInstant now ((r : ℚ) / daily_avg_usage now e rest)) := by
    intro r d hd
    rw [predict_depletion_cons hu] at hd
    unfold predictFromUsage at hd
    rw [if_pos havg] at hd
    by_cases hneg : (r : ℚ) / daily_avg_usage now e rest < 0
    · rw [if_pos hneg] at hd
      simp at hd
    · rw [if_neg hneg] at hd
      injection hd with h
      exact h.symm
  have hdiv : (r1 : ℚ) / daily_avg_usage now e rest
      < (r2 : ℚ) / daily_avg_usage now e rest := by
    apply div_lt_div_of_pos_right ?_ havg
    exact_mod_cast h12
  have hinst : depletionInstant now ((r1 : ℚ) / daily_avg_usage now e rest)
      < depletionInstant now ((r2 : ℚ) / daily_avg_usage now e rest) := by
    unfold depletionInstant
    nlinarith [hdiv]
  refine ⟨?_, hinst⟩
  rw [key r1 d1 hd1, key r2 d2 hd2]
  exact formatDay_mono (le_of_lt hinst)

theorem linear_monotone_amended_witness :
    0 < daily_avg_usage 0 (LogEntry.mk "a" 1000 0) []
    ∧ (10 : Int) < 20
    ∧ (0 : Int) ≤ 0
    ∧ depletionInstant 0 ((10 : ℚ) / daily_avg_usage 0 (LogEntry.mk "a" 1000 0) [])
        < depletionInstant 0 ((20 : ℚ) / daily_avg_usage 0 (LogEntry.mk "a" 1000 0) []) := by
  have havg : 0 < daily_avg_usage 0 (LogEntry.mk "a" 1000 0) [] := by
    norm_num [daily_avg_usage, total_usage, first_usage_date, time_span_days, tdDays]
  have h := linear_monotone_amended [LogEntry.mk "a" 1000 0] 0 "a" 10 20
    (LogEntry.mk "a" 1000 0) [] 0 0 (by decide) havg (by norm_num)
    (by simp [predict_depletion, predictFromUsage, usageEntries, daily_avg_usage, total_usage,
        first_usage_date, time_span_days, tdDays, formatDay, depletionInstant, List.filter]
        norm_num)
    (by simp [predict_depletion, predictFromUsage, usageEntries, daily_avg_usage, total_usage,
        first_usage_date, time_span_days, tdDays, formatDay, depletionInstant, List.filter]
        norm_num)
  exact ⟨havg, by norm_num, h.1, h.2⟩

/-- Claim C10: when the log holds at least one positive-quantity event for
the medicine and no event timestamp exceeds now, the linear estimator never
returns the no-trend status: the result is a calendar date or the
already-depleted status. -/
theorem linear_always_projects (logs : List LogEntry) (now : Int) (medicine : String)
    (current_remaining : Int)
    (hex : ∃ e ∈ logs, e.medicine = medicine ∧ 0 < e.quantity)
    (hts : ∀ e ∈ logs, e.timestamp ≤ now) :
    predict_depletion logs now medicine current_remaining ≠ DepletionEstimate.noTrend
    ∧ (predict_depletion logs now medicine current_remaining
          = DepletionEstimate.alreadyDepleted
       ∨ ∃ d, predict_depletion logs now medicine current_remaining
              = DepletionEstimate.depletionDate d) := by
  obtain ⟨w, hw, hwm, hwq⟩ := hex
  have hmem : w ∈ usageEntries logs medicine := mem_usageEntries.mpr ⟨hw, hwm, hwq⟩
  obtain ⟨e, rest, hu⟩ : ∃ e rest, usageEntries logs medicine = e :: rest := by
    cases h : usageEntries logs medicine with
    | nil => rw [h] at hmem; cases hmem
    | cons a l => exact ⟨a, l, rfl⟩
  have hall : ∀ x ∈ e :: rest, x ∈ logs ∧ x.medicine = medicine ∧ 0 < x.quantity := by
    intro x hx
    exact mem_usageEntries.mp (hu ▸ hx)
  have htot : 0 < total_usage (e :: rest) := by
    unfold total_usage
    apply List.sum_pos
    · intro q hq
      obtain ⟨x, hx, hxq⟩ := List.mem_map.mp hq
      exact hxq ▸ (hall x hx).2.2
    · simp
  have hfirst : first_usage_date e rest ≤ now :=
    first_usage_date_le (hts e (hall e (List.mem_cons_self e rest)).1)
  have hspan : (0 : ℚ) < (time_span_days now (first_usage_date e rest) : ℚ) := by
    have h1 := one_le_time_span_days hfirst
    have : (0 : Int) < time_span_days now (first_usage_date e rest) := by omega
    exact_mod_cast this
  have havg : 0 < daily_avg_usage now e rest := by
    unfold daily_avg_usage
    apply div_pos ?_ hspan
    exact_mod_cast htot
  rw [predict_depletion_cons hu]
  unfold predictFromUsage
  rw [if_pos havg]
  by_cases hneg : (current_remaining : ℚ) / daily_avg_usage now e rest < 0
  · rw [if_pos hneg]
    exact ⟨by simp, Or.inl rfl⟩
  · rw [if_neg hneg]
    exact ⟨by simp, Or.inr ⟨_, rfl⟩⟩

theorem linear_always_projects_witness :
    (∃ e ∈ [LogEntry.mk "a" 10 0], e.medicine = "a" ∧ 0 < e.quantity)
    ∧ (∀ e ∈ [LogEntry.mk "a" 10 0], e.timestamp ≤ 86400)
    ∧ (predict_depletion [LogEntry.mk "a" 10 0] 86400 "a" 50 ≠ DepletionEstimate.noTrend
       ∧ (predict_depletion [LogEntry.mk "a" 10 0] 86400 "a" 50
              = DepletionEstimate.alreadyDepleted
          ∨ ∃ d, predict_depletion [LogEntry.mk "a" 10 0] 86400 "a" 50
                 = DepletionEstimate.depletionDate d)) :=
  ⟨by decide, by decide, linear_always_projects _ _ _ _ (by decide) (by decide)⟩

lemma clampedTotal_nil : clampedTotal [] = 0 := rfl

lemma clampedTotal_cons (row : ForecastRow) (rows : List ForecastRow) :
    clampedTotal (row :: rows) = max row.yhat 0 + clampedTotal rows := by
  simp [clampedTotal]

lemma walkCrossing_cons (r : ℚ) (row : ForecastRow) (rest : List ForecastRow) :
    walkCrossing r (row :: rest)
      = if r - max row.yhat 0 ≤ 0 then some row.ds
        else walkCrossing (r - max row.yhat 0) rest := rfl

lemma walkCrossing_eq_none_iff (r : ℚ) (rows : List ForecastRow) :
    walkCrossing r rows = none
      ↔ ∀ n < rows.length, 0 < r - clampedTotal (rows.take (n + 1)) := by
  induction rows generalizing r with
  | nil => simp [walkCrossing]
  | cons row rest ih =>
    rw [walkCrossing_cons]
    by_cases h : r - max row.yhat 0 ≤ 0
    · rw [if_pos h]
      refine iff_of_false (by simp) (fun hall => ?_)
      have h0 := hall 0 (Nat.succ_pos _)
      simp only [List.take_succ_cons, List.take_zero, clampedTotal_cons,
        clampedTotal_nil, add_zero] at h0
      linarith
    · rw [if_neg h]
      push_neg at h
      rw [ih]
      constructor
      · intro hL n hn
        match n with
        | 0 =>
          simp only [List.take_succ_cons, List.take_zero, clampedTotal_cons,
            clampedTotal_nil, add_zero]
          linarith
        | Nat.succ k =>
          have hk : k < rest.length := by simpa using hn
          have hx := hL k hk
          simp only [List.take_succ_cons, clampedTotal_cons] at hx ⊢
          linarith
      · intro hR k hk
        have hx := hR (k + 1) (by simpa using Nat.succ_lt_succ hk)
        simp only [List.take_succ_cons, clampedTotal_cons] at hx
        linarith

lemma walkCrossing_eq_some_first (r : ℚ) (rows : List ForecastRow) (i : Nat)
    (hi : i < rows.length)
    (hcross : r - clampedTotal (rows.take (i + 1)) ≤ 0)
    (hbefore : ∀ j < i, 0 < r - clampedTotal (rows.take (j + 1))) :
    walkCrossing r rows = some (rows.get ⟨i, hi⟩).ds := by
  induction rows generalizing r i with
  | nil => exact absurd hi (Nat.not_lt_zero i)
  | cons row rest ih =>
    match i with
    | 0 =>
      have hc : r - max row.yhat 0 ≤ 0 := by
        simp only [List.take_succ_cons, List.take_zero, clampedTotal_cons,
          clampedTotal_nil, add_zero] at hcross
        exact hcross
      rw [walkCrossing_cons, if_pos hc]
      rfl
    | Nat.succ k =>
      have h0 : 0 < r - max row.yhat 0 := by
        have hx := hbefore 0 (Nat.succ_pos k)
        simp only [List.take_succ_cons, List.take_zero, clampedTotal_cons,
          clampedTotal_nil, add_zero] at hx
        exact hx
      rw [walkCrossing_cons, if_neg (by linarith)]
      have hk : k < rest.length := by simpa using hi
      have hcross2 : (r - max row.yhat 0) - clampedTotal (rest.take (k + 1)) ≤ 0 := by
        simp only [List.take_succ_cons, clampedTotal_cons] at hcross
        linarith
      have hbefore2 : ∀ j < k, 0 < (r - max row.yhat 0) - clampedTotal (rest.take (j + 1)) := by
        intro j hj
        have hx := hbefore (j + 1) (Nat.succ_lt_succ hj)
        simp only [List.take_succ_cons, clampedTotal_cons] at hx
        linarith
      rw [ih (r - max row.yhat 0) k hk hcross2 hbefore2]
      rfl

lemma seasonalAlert_of_walk_some {today : Int} {r : ℚ} {rows : List ForecastRow} {ds : Int}
    (h : walkCrossing r rows = some ds) :
    seasonalAlert today r rows
      = if 0 ≤ tdDays ds today then ForecastAlert.neededIn (tdDays ds today)
        else ForecastAlert.alreadyDepleted := by
  unfold seasonalAlert
  rw [h]

lemma seasonalAlert_of_walk_none {today : Int} {r : ℚ} {rows : List ForecastRow}
    (h : walkCrossing r rows = none) :
    seasonalAlert today r rows = ForecastAlert.sufficientForNow := by
  unfold seasonalAlert
  rw [h]

/-- Claim C2: for a medicine with at least 2 usage observations whose fit
succeeds, the forecast alert is the walk over the last 14 forecast rows; the
walk subtracts the clamped predicted usages in order from current_remaining,
the first row whose running remaining is at most 0 is the crossing and
determines the alert (needed-in when its whole-day distance from today is
nonnegative, already depleted when negative), and with no crossing the alert
is sufficient-for-now. -/
theorem seasonal_walk_correct
    (fitPredict : List Obs → Except String (List ForecastRow)) (today : Int)
    (obs : List Obs) (current_remaining : Int) (rows : List ForecastRow)
    (h2 : 2 ≤ obs.length) (hfit : fitPredict obs = Except.ok rows) :
    forecastMed fitPredict today obs current_remaining
        = seasonalAlert today (current_remaining : ℚ) (takeLast 14 rows)
    ∧ ∀ (r : ℚ) (fr : List ForecastRow),
        ((∀ n < fr.length, 0 < r - clampedTotal (fr.take (n + 1))) →
          seasonalAlert today r fr = ForecastAlert.sufficientForNow)
        ∧ ∀ i (hi : i < fr.length),
            r - clampedTotal (fr.take (i + 1)) ≤ 0 →
            (∀ j < i, 0 < r - clampedTotal (fr.take (j + 1))) →
            seasonalAlert today r fr
              = if 0 ≤ tdDays (fr.get ⟨i, hi⟩).ds today
                then ForecastAlert.neededIn (tdDays (fr.get ⟨i, hi⟩).ds today)
                else ForecastAlert.alreadyDepleted := by
  constructor
  · unfold forecastMed
    rw [if_neg (by omega), hfit]
  · intro r fr
    constructor
    · intro hall
      exact seasonalAlert_of_walk_none ((walkCrossing_eq_none_iff r fr).mpr hall)
    · intro i hi hcross hbefore
      exact seasonalAlert_of_walk_some (walkCrossing_eq_some_first r fr i hi hcross hbefore)

theorem seasonal_walk_correct_witness :
    2 ≤ [Obs.mk 0 3, Obs.mk 86400 4].length
    ∧ forecastMed
        (fun _ => Except.ok
          [ForecastRow.mk (86400 * 15) 5, ForecastRow.mk (86400 * 16) 5,
            ForecastRow.mk (86400 * 17) 5])
        (86400 * 14) [Obs.mk 0 3, Obs.mk 86400 4] 10
      = ForecastAlert.neededIn 2 := by
  have h := seasonal_walk_correct
    (fun _ => Except.ok
      [ForecastRow.mk (86400 * 15) 5, ForecastRow.mk (86400 * 16) 5,
        ForecastRow.mk (86400 * 17) 5])
    (86400 * 14) [Obs.mk 0 3, Obs.mk 86400 4] 10
    [ForecastRow.mk (86400 * 15) 5, ForecastRow.mk (86400 * 16) 5,
      ForecastRow.mk (86400 * 17) 5]
    (by decide) rfl
  refine ⟨by decide, ?_⟩
  rw [h.1]
  simp [seasonalAlert, walkCrossing, takeLast, tdDays]
  norm_num
  decide

/-- Claim C5: a fitting or prediction failure for one medicine is converted
by the per-medicine boundary into a diagnostic alert embedding the failure
reason (never an unhandled exception, since the alert space is the total
result type), and the alert of a medicine whose observations the fit treats
identically is unchanged. -/
theorem forecast_failure_isolated
    (fp fp2 : List Obs → Except String (List ForecastRow))
    (logs : List LogEntry) (today : Int) (medicine : String)
    (msg : String) (obs : List Obs) (current_remaining : Int)
    (hagree : fp (usageObs logs medicine) = fp2 (usageObs logs medicine))
    (hlen : 2 ≤ obs.length) :
    forecastAlertFor fp logs today medicine = forecastAlertFor fp2 logs today medicine
    ∧ forecastMed (fun _ => Except.error msg) today obs current_remaining
        = ForecastAlert.forecastError ("Forecast error: " ++ msg) := by
  constructor
  · unfold forecastAlertFor forecastMed
    rw [hagree]
  · unfold forecastMed
    rw [if_neg (by omega)]

theorem forecast_failure_isolated_witness :
    (fun o => if o = usageObs [LogEntry.mk "a" 5 0, LogEntry.mk "b" 7 0] "a"
        then Except.error ("fit failed") else Except.ok [ForecastRow.mk 86400 1])
        (usageObs [LogEntry.mk "a" 5 0, LogEntry.mk "b" 7 0] "b")
      = (fun _ => Except.ok [ForecastRow.mk 86400 1])
          (usageObs [LogEntry.mk "a" 5 0, LogEntry.mk "b" 7 0] "b")
    ∧ forecastAlertFor
        (fun o => if o = usageObs [LogEntry.mk "a" 5 0, LogEntry.mk "b" 7 0] "a"
          then Except.error ("fit failed") else Except.ok [ForecastRow.mk 86400 1])
        [LogEntry.mk "a" 5 0, LogEntry.mk "b" 7 0] 0 "b"
      = forecastAlertFor (fun _ => Except.ok [ForecastRow.mk 86400 1])
          [LogEntry.mk "a" 5 0, LogEntry.mk "b" 7 0] 0 "b"
    ∧ forecastMed (fun _ => Except.error ("fit failed")) 0 [Obs.mk 0 3, Obs.mk 1 4] 5
        = ForecastAlert.forecastError ("Forecast error: fit failed") := by
  have h := forecast_failure_isolated
    (fun o => if o = usageObs [LogEntry.mk "a" 5 0, LogEntry.mk "b" 7 0] "a"
      then Except.error ("fit failed") else Except.ok [ForecastRow.mk 86400 1])
    (fun _ => Except.ok [ForecastRow.mk 86400 1])
    [LogEntry.mk "a" 5 0, LogEntry.mk "b" 7 0] 0 "b" "fit failed"
    [Obs.mk 0 3, Obs.mk 1 4] 5 (by rfl) (by decide)
  exact ⟨by rfl, h.1, h.2⟩

/-- Claim C7: with fewer than 2 usage observations the seasonal simulator
returns the insufficient-data status, and the result does not depend on the
fit function at all (no model fitting is attempted). -/
theorem seasonal_insufficient_data
    (fp fp2 : List Obs → Except String (List ForecastRow)) (today : Int)
    (obs : List Obs) (current_remaining : Int) (h : obs.length < 2) :
    forecastMed fp today obs current_remaining = ForecastAlert.insufficientData
    ∧ forecastMed fp today obs current_remaining
        = forecastMed fp2 today obs current_remaining := by
  have h1 : forecastMed fp today obs current_remaining = ForecastAlert.insufficientData := by
    unfold forecastMed
    rw [if_pos h]
  have h2 : forecastMed fp2 today obs current_remaining = ForecastAlert.insufficientData := by
    unfold forecastMed
    rw [if_pos h]
  exact ⟨h1, h1.trans h2.symm⟩

theorem seasonal_insufficient_data_witness :
    [Obs.mk 0 5].length < 2
    ∧ forecastMed (fun _ => Except.error ("x")) 0 [Obs.mk 0 5] 7
        = ForecastAlert.insufficientData
    ∧ forecastMed (fun _ => Except.error ("x")) 0 [Obs.mk 0 5] 7
        = forecastMed (fun _ => Except.ok [ForecastRow.mk 0 99]) 0 [Obs.mk 0 5] 7 := by
  have h := seasonal_insufficient_data (fun _ => Except.error ("x"))
    (fun _ => Except.ok [ForecastRow.mk 0 99]) 0 [Obs.mk 0 5] 7 (by decide)
  exact ⟨by decide, h.1, h.2⟩

lemma clampedTotal_eq_zero {rows : List ForecastRow} (h : ∀ row ∈ rows, row.yhat ≤ 0) :
    clampedTotal rows = 0 := by
  induction rows with
  | nil => rfl
  | cons row rest ih =>
    rw [clampedTotal_cons, max_eq_right (h row (List.mem_cons_self row rest)),
      ih (fun x hx => h x (List.mem_cons_of_mem row hx))]
    simp

/-- Claim C8: the walk treats every negative predicted usage as zero (the
walk over a forecast equals the walk over its clamped forecast), and a
forecast whose predictions are all negative with positive current_remaining
finds no crossing and yields sufficient-for-now. -/
theorem seasonal_negative_forecast_clamped (today : Int) (r : ℚ) (rows : List ForecastRow) :
    walkCrossing r rows
        = walkCrossing r (rows.map (fun row => ForecastRow.mk row.ds (max row.yhat 0)))
    ∧ ((∀ row ∈ rows, row.yhat < 0) → 0 < r →
        walkCrossing r rows = none
        ∧ seasonalAlert today r rows = ForecastAlert.sufficientForNow) := by
  constructor
  · induction rows generalizing r with
    | nil => rfl
    | cons row rest ih =>
      rw [List.map_cons, walkCrossing_cons, walkCrossing_cons]
      have hmm : max (max row.yhat 0) 0 = max row.yhat 0 := max_eq_left (le_max_right _ _)
      simp only [hmm]
      by_cases h : r - max row.yhat 0 ≤ 0
      · rw [if_pos h, if_pos h]
      · rw [if_neg h, if_neg h, ih]
  · intro hneg hr
    have hnone : walkCrossing r rows = none := by
      rw [walkCrossing_eq_none_iff]
      intro n hn
      rw [clampedTotal_eq_zero
        (fun row hrow => le_of_lt (hneg row (List.take_subset _ _ hrow)))]
      linarith
    exact ⟨hnone, seasonalAlert_of_walk_none hnone⟩

theorem seasonal_negative_forecast_clamped_witness :
    (∀ row ∈ [ForecastRow.mk 86400 (-3), ForecastRow.mk 172800 (-1)], row.yhat < 0)
    ∧ (0 : ℚ) < 5
    ∧ walkCrossing 5 [ForecastRow.mk 86400 (-3), ForecastRow.mk 172800 (-1)] = none
    ∧ seasonalAlert 0 5 [ForecastRow.mk 86400 (-3), ForecastRow.mk 172800 (-1)]
        = ForecastAlert.sufficientForNow := by
  have h := (seasonal_negative_forecast_clamped 0 5
    [ForecastRow.mk 86400 (-3), ForecastRow.mk 172800 (-1)]).2 (by norm_num) (by norm_num)
  exact ⟨by norm_num, by norm_num, h.1, h.2⟩

end MedicineTracker
